import Mathlib

/-!
Shallow embedding of the cache-and-session core of the PocketLLM Portal
frontend: `APIService` (inline response cache + inference orchestration,
from `src/services/SessionManager.js`), `CacheManager` (TTL / size-bounded
cache, from `src/services/CacheManager.js`) and `SessionManager`
(local session mirror, both the legacy backend-only version and the current
guest-aware version).

Modelling conventions:
* JS `Map` objects are association lists in insertion order (`listSet`
  updates an existing key in place, otherwise appends; `eraseKey` removes
  the entry for a key).
* `Date.now()` and `new Date().toISOString()` are effectful reads and are
  passed in as explicit `Nat` / `String` parameters.
* Remote RPC / backend calls are passed in as an `Except String α` argument
  describing the outcome the awaited call would have had; a thrown JS error
  is an `Except.error`.
* JS strings are Lean `String`s; `.toLowerCase()` is modelled by ASCII
  `Char.toLower`, `.trim()` by trimming ASCII whitespace, `.substring(0,n)`
  and `.charCodeAt` by character (scalar) operations.  This is exact for
  the ASCII payloads exercised here.
* `localStorage` under the single key `guestSessions` is an
  `Option (List Session)`; `JSON.stringify` / `JSON.parse` round-trip these
  JSON-safe records, so save/load move the value itself.
-/

/-- JS association-list lookup mirroring `Map.prototype.get`. -/
def listGet {α : Type} : List (String × α) → String → Option α
  | [], _ => none
  | p :: rest, k => if p.1 == k then some p.2 else listGet rest k

/-- JS `Map.prototype.set`: update an existing key in place (keeping
insertion order), otherwise append at the end. -/
def listSet {α : Type} : List (String × α) → String → α → List (String × α)
  | [], k, v => [(k, v)]
  | p :: rest, k, v => if p.1 == k then (k, v) :: rest else p :: listSet rest k v

/-- JS `Map.prototype.delete`: remove the entry for a key, if present. -/
def eraseKey {α : Type} : List (String × α) → String → List (String × α)
  | [], _ => []
  | p :: rest, k => if p.1 == k then rest else p :: eraseKey rest k

theorem listGet_listSet_self {α : Type} (l : List (String × α)) (k : String) (v : α) :
    listGet (listSet l k v) k = some v := by
  induction l with
  | nil => simp [listGet, listSet]
  | cons p rest ih =>
    by_cases h : p.1 = k
    · simp [listGet, listSet, h]
    · simpa [listGet, listSet, h] using ih

theorem listGet_listSet_ne {α : Type} (l : List (String × α)) (k k' : String) (v : α)
    (h : k' ≠ k) : listGet (listSet l k v) k' = listGet l k' := by
  induction l with
  | nil => simp [listGet, listSet, Ne.symm h]
  | cons p rest ih =>
    by_cases hp : p.1 = k
    · subst hp
      simp [listGet, listSet, Ne.symm h]
    · by_cases hp' : p.1 = k'
      · simp [listGet, listSet, hp, hp', h]
      · simpa [listGet, listSet, hp, hp', h] using ih

theorem listGet_mem_values {α : Type} (l : List (String × α)) (k : String) (v : α)
    (h : listGet l k = some v) : v ∈ l.map (fun p => p.2) := by
  induction l with
  | nil => simp [listGet] at h
  | cons p rest ih =>
    by_cases hp : p.1 = k
    · simp [listGet, hp] at h
      simp [h]
    · simp only [listGet, beq_iff_eq, hp, if_false] at h
      exact List.mem_cons_of_mem _ (ih h)

theorem listGet_none_of_not_mem_keys {α : Type} (l : List (String × α)) (k : String)
    (h : k ∉ l.map (fun p => p.1)) : listGet l k = none := by
  induction l with
  | nil => rfl
  | cons p rest ih =>
    simp only [List.map_cons, List.mem_cons, not_or] at h
    simp [listGet, Ne.symm h.1, ih h.2]

theorem listGet_eraseKey_self {α : Type} (l : List (String × α)) (k : String)
    (hnd : (l.map (fun p => p.1)).Nodup) : listGet (eraseKey l k) k = none := by
  induction l with
  | nil => simp [listGet, eraseKey]
  | cons p rest ih =>
    simp only [List.map_cons, List.nodup_cons] at hnd
    by_cases hp : p.1 = k
    · subst hp
      simp only [eraseKey, beq_self_eq_true, if_true]
      exact listGet_none_of_not_mem_keys rest p.1 hnd.1
    · simp only [eraseKey, beq_iff_eq, hp, if_false]
      simpa [listGet, hp] using ih hnd.2

theorem eraseKey_subset {α : Type} (l : List (String × α)) (k : String) :
    ∀ p, p ∈ eraseKey l k → p ∈ l := by
  induction l with
  | nil => simp [eraseKey]
  | cons q rest ih =>
    intro p hp
    by_cases hq : q.1 = k
    · simp only [eraseKey, beq_iff_eq, hq, if_true] at hp
      exact List.mem_cons_of_mem _ hp
    · simp only [eraseKey, beq_iff_eq, hq, if_false, List.mem_cons] at hp
      rcases hp with h | h
      · exact h ▸ List.mem_cons_self _ _
      · exact List.mem_cons_of_mem _ (ih p h)

theorem eraseKey_length_lt {α : Type} (l : List (String × α)) (k : String)
    (h : ∃ p ∈ l, p.1 = k) : (eraseKey l k).length < l.length := by
  induction l with
  | nil => simp at h
  | cons q rest ih =>
    by_cases hq : q.1 = k
    · simp [eraseKey, hq]
    · simp only [eraseKey, beq_iff_eq, hq, if_false, List.length_cons]
      rcases h with ⟨p, hp, hpk⟩
      rcases List.mem_cons.1 hp with h | h
      · exact absurd (h ▸ hpk) hq
      · exact Nat.succ_lt_succ (ih ⟨p, h, hpk⟩)

/-- ASCII lowercasing, modelling JS `String.prototype.toLowerCase` on the
ASCII payloads used by this application. -/
def lowerStr (s : String) : String := ⟨s.data.map Char.toLower⟩

/-- ASCII whitespace, modelling what JS `trim` removes on ASCII input. -/
def isJsSpace (c : Char) : Bool := c = ' ' || c = '\t' || c = '\n' || c = '\r'

/-- JS `String.prototype.trim` (ASCII whitespace model). -/
def trimStr (s : String) : String :=
  ⟨((s.data.dropWhile isJsSpace).reverse.dropWhile isJsSpace).reverse⟩

/-- JS `String.prototype.substring(0, n)`. -/
def takeStr (n : Nat) (s : String) : String := ⟨s.data.take n⟩

/-- The normalization both caches apply: `prompt.toLowerCase().trim()`. -/
def jsNormalize (s : String) : String := trimStr (lowerStr s)

/-- A chat message as exchanged with the inference endpoint. -/
structure Msg where
  role : String
  content : String
deriving DecidableEq

/-- The scan `for (let i = len-1; i >= 0; i--) if (conv[i].role === 'user')`
shared by `_generateCacheKey` and `_logTelemetry`: content of the last
user-role message, `''` when there is none. -/
def lastUserContent (conv : List Msg) : String :=
  match conv.reverse.find? (fun m => m.role == "user") with
  | some m => m.content
  | none => ""

namespace APIService

/-- An entry of the in-`APIService` response cache (`_cacheResponse`). -/
structure CEntry where
  response : String
  latency : Nat
  timestamp : Nat
  expiresAt : Nat
  conversationLength : Nat
deriving DecidableEq

/-- One record of `telemetry.requests` as built by `_logTelemetry`. -/
structure TelEntry where
  timestamp : Nat
  action : String
  messageCount : Nat
  lastUserMessage : String
  responseLength : Nat
  latency : Nat
  isCached : Bool
deriving DecidableEq

/-- The mutable state of an `APIService` instance (cache + telemetry). -/
structure ApiState where
  cache : List (String × CEntry)
  totalRequests : Nat
  cacheHits : Nat
  cacheMisses : Nat
  totalLatency : Nat
  requests : List TelEntry
deriving DecidableEq

/-- Constructor state of `APIService`. -/
def init : ApiState :=
  { cache := [], totalRequests := 0, cacheHits := 0, cacheMisses := 0
    totalLatency := 0, requests := [] }

/-- Embeds `_generateCacheKey`: key from the last user message, lowercased and
trimmed, the whole `cache_…` string truncated to 100 characters. -/
def generateCacheKey (conv : List Msg) : String :=
  takeStr 100 ("cache_" ++ jsNormalize (lastUserContent conv))

/-- Embeds `_isCacheExpired`: `Date.now() > entry.expiresAt`. -/
def isCacheExpired (e : CEntry) (now : Nat) : Bool := decide (e.expiresAt < now)

/-- Embeds `_logTelemetry`: appends a log record, bumps the request counters and
keeps only the last 1000 records. -/
def logTelemetry (st : ApiState) (action : String) (conv : List Msg)
    (resp : String) (latency : Nat) (isCached : Bool) (tsNow : Nat) : ApiState :=
  let entry : TelEntry :=
    { timestamp := tsNow, action := action, messageCount := conv.length
      lastUserMessage := takeStr 100 (lastUserContent conv)
      responseLength := resp.length, latency := latency, isCached := isCached }
  let reqs := st.requests ++ [entry]
  { st with
    totalRequests := st.totalRequests + 1
    totalLatency := st.totalLatency + latency
    requests := if reqs.length > 1000 then reqs.drop 1 else reqs }

/-- Embeds `_checkCache`: look the fingerprint up; on a valid (unexpired) entry
count a hit and log telemetry, otherwise count a miss.  An expired entry is
left in the map. -/
def checkCache (st : ApiState) (conv : List Msg) (now : Nat) :
    ApiState × Option CEntry :=
  let key := generateCacheKey conv
  match listGet st.cache key with
  | some c =>
    if isCacheExpired c now then ({ st with cacheMisses := st.cacheMisses + 1 }, none)
    else
      (logTelemetry { st with cacheHits := st.cacheHits + 1 }
        "CACHE_HIT" conv c.response c.latency true now, some c)
  | none => ({ st with cacheMisses := st.cacheMisses + 1 }, none)

/-- Embeds `_cacheResponse`: store the response under the conversation's key with
`expiresAt = Date.now() + ttl*1000`. -/
def cacheResponse (st : ApiState) (conv : List Msg) (resp : String)
    (latency ttl now : Nat) : ApiState :=
  { st with
    cache := listSet st.cache (generateCacheKey conv)
      { response := resp, latency := latency, timestamp := now
        expiresAt := now + ttl * 1000, conversationLength := conv.length } }

/-- Shape of the backend `/inference` JSON response. -/
structure RemoteResp where
  response : String
  tokens : Option Nat
  isCached : Option Bool
deriving DecidableEq

/-- Return value of `sendInferenceRequest`. -/
structure SendRes where
  response : String
  latency : Nat
  isCached : Bool
  tokens : Nat
  conversationLength : Nat
deriving DecidableEq

/-- The model parameters; only `ttl` is read by the caching logic. -/
structure InferParams where
  ttl : Option Nat
deriving DecidableEq

/-- JS `x || d` for the numeric `parameters.ttl || 3600` (0 is falsy). -/
def orDefaultNat (o : Option Nat) (d : Nat) : Nat :=
  match o with
  | some n => if n = 0 then d else n
  | none => d

/-- Outcome of one `sendInferenceRequest` call: the mutated service state,
the returned/thrown value, and whether the remote inference RPC was
invoked on this call. -/
structure SendOut where
  state : ApiState
  result : Except String SendRes
  usedRemote : Bool

/-- Embeds `sendInferenceRequest`, as the source stands: the input is validated,
the local cache check (present in the source only as commented-out code)
is NOT performed, the remote RPC is always invoked, its response is cached
under the conversation's fingerprint, telemetry is recorded and the result
is returned; failures log an ERROR telemetry record and are rethrown.
`t0` is `Date.now()` at entry, `t1` is `Date.now()` after the RPC. -/
def sendInferenceRequest (st : ApiState) (_sessionId : String) (conv : List Msg)
    (params : InferParams) (remote : Except String RemoteResp) (t0 t1 : Nat) :
    SendOut :=
  if conv.isEmpty then
    { state := logTelemetry st "ERROR" conv
        "Error: Invalid conversation history format" (t1 - t0) false t1
      result := .error "Invalid conversation history format"
      usedRemote := false }
  else
    match remote with
    | .error e =>
      { state := logTelemetry st "ERROR" conv ("Error: " ++ e) (t1 - t0) false t1
        result := .error e
        usedRemote := true }
    | .ok r =>
      let latency := t1 - t0
      let st1 := cacheResponse st conv r.response latency (orDefaultNat params.ttl 3600) t1
      let st2 := logTelemetry st1 "INFERENCE" conv r.response latency (r.isCached.getD false) t1
      { state := st2
        result := .ok
          { response := r.response, latency := latency
            isCached := r.isCached.getD false, tokens := r.tokens.getD 0
            conversationLength := conv.length }
        usedRemote := true }

end APIService

namespace CacheManager

/-- Wrap an integer to the signed 32-bit range, modelling JS `x | 0` /
`x & x` coercion (`ToInt32`). -/
def toInt32 (n : Int) : Int :=
  let m := n % 4294967296
  if m < 2147483648 then m else m - 4294967296

/-- One step of the rolling hash `hash = ((hash << 5) - hash) + charCode;
hash = hash & hash`. -/
def hashStep (h : Int) (c : Char) : Int :=
  toInt32 (toInt32 (h * 32) - h + (c.toNat : Int))

/-- The full 32-bit rolling hash of `_generateKey` over the (normalized)
prompt, starting from 0. -/
def jsHash (s : String) : Int := s.data.foldl hashStep 0

/-- Embeds `_generateKey`: normalize the prompt (lowercase + trim), hash it to a
32-bit integer, and render `cache_${Math.abs(hash)}`. -/
def generateKey (prompt : String) : String :=
  "cache_" ++ toString (jsHash (jsNormalize prompt)).natAbs

/-- An entry of the `CacheManager` map as built by `put`. -/
structure Entry where
  prompt : String
  response : String
  createdAt : Nat
  expiresAt : Nat
  accessCount : Nat
deriving DecidableEq

/-- JS `JSON.stringify` escape length of one character in a string literal
(in UTF-16 code units): `"` and `\` take 2, common control escapes take 2,
other control characters take 6 (`\uXXXX`), astral characters take 2
(surrogate pair), all else 1. -/
def escLen (c : Char) : Nat :=
  if c = '\"' ∨ c = '\\' then 2
  else if c.toNat < 32 then
    if c.toNat = 8 ∨ c.toNat = 9 ∨ c.toNat = 10 ∨ c.toNat = 12 ∨ c.toNat = 13 then 2 else 6
  else if c.toNat ≥ 65536 then 2 else 1

/-- Length of the JSON string literal rendering of `s` (quotes included). -/
def jsonStrLen (s : String) : Nat := 2 + (s.data.map escLen).sum

/-- Decimal digit count of a natural number (length of its JSON number
rendering), with structural fuel so it reduces in the kernel. -/
def numLenAux : Nat → Nat → Nat
  | 0, _ => 1
  | fuel + 1, n => if n < 10 then 1 else 1 + numLenAux fuel (n / 10)

/-- Length of `JSON.stringify(n)` for a natural number `n`. -/
def jsonNumLen (n : Nat) : Nat := numLenAux n n

/-- Embeds `_sizeOf`: `JSON.stringify(obj).length * 2` for a cache entry
`{prompt, response, metadata, createdAt, expiresAt, accessCount}`; the
`metadata` field is always the default `{}` here (no caller passes one),
rendering as 2 characters.  The constants count braces, quoted field
names, colons and commas of the fixed JSON shape. -/
def sizeOfEntry (e : Entry) : Nat :=
  2 * (2 + 5 + 9 + jsonStrLen e.prompt + 11 + jsonStrLen e.response + 15
    + 12 + jsonNumLen e.createdAt + 12 + jsonNumLen e.expiresAt
    + 14 + jsonNumLen e.accessCount)

/-- Embeds `_getCacheSize`: sum of the estimated sizes of all entries. -/
def getCacheSize (c : List (String × Entry)) : Nat :=
  (c.map (fun p => sizeOfEntry p.2)).sum

/-- The mutable state of a `CacheManager` instance. -/
structure CMState where
  cache : List (String × Entry)
  maxSize : Nat
  ttl : Nat
  hits : Nat
  misses : Nat
  evictions : Nat
deriving DecidableEq

/-- Embeds `new CacheManager(maxSize, ttl)`: `maxSize` is given in MB and stored
in bytes. -/
def mk (maxSizeMB ttl : Nat) : CMState :=
  { cache := [], maxSize := maxSizeMB * 1024 * 1024, ttl := ttl
    hits := 0, misses := 0, evictions := 0 }

/-- One iteration of the `_evictOldest` scan: keep the incumbent unless the
next entry's `createdAt` is strictly smaller (ties keep the earlier one). -/
def selStep (best : Option (String × Entry)) (kv : String × Entry) :
    Option (String × Entry) :=
  match best with
  | none => some kv
  | some b => if kv.2.createdAt < b.2.createdAt then some kv else some b

/-- The `_evictOldest` scan over all entries in insertion order. -/
def selectOldest (c : List (String × Entry)) : Option (String × Entry) :=
  c.foldl selStep none

/-- Embeds `_evictOldest`: find the entry with the smallest `createdAt` and delete
it (the JS guard `if (oldestKey)` skips the deletion when the selected key
is the empty string, which is falsy). -/
def evictOldest (st : CMState) : CMState :=
  if st.cache.isEmpty then st
  else
    match selectOldest st.cache with
    | some (k, _) =>
      if k = "" then st
      else { st with cache := eraseKey st.cache k, evictions := st.evictions + 1 }
    | none => st

/-- The `while (size > maxSize && cache.size > 0) evictOldest()` loop,
with structural fuel; `cache.length + 1` steps always suffice because each
effective iteration removes one entry. -/
def evictLoopAux : Nat → CMState → CMState
  | 0, st => st
  | fuel + 1, st =>
    if getCacheSize st.cache > st.maxSize ∧ st.cache ≠ [] then
      evictLoopAux fuel (evictOldest st)
    else st

/-- The entry `put` inserts: prompt truncated to 200 characters, response
and metadata stored whole, `expiresAt = now + ttl*1000`. -/
def newEntry (st : CMState) (prompt response : String) (now : Nat) : Entry :=
  { prompt := takeStr 200 prompt, response := response
    createdAt := now, expiresAt := now + st.ttl * 1000, accessCount := 0 }

/-- Embeds `put`: evict (oldest first) while over budget, then insert the new
entry under the hashed key — without re-checking the budget. -/
def put (st : CMState) (prompt response : String) (now : Nat) : CMState :=
  let key := generateKey prompt
  let st1 := evictLoopAux (st.cache.length + 1) st
  { st1 with cache := listSet st1.cache key (newEntry st prompt response now) }

/-- Embeds `get`: a missing key counts a miss; a found-but-expired entry
(`now > expiresAt`) is deleted and counts a miss; a valid entry gets its
`accessCount` bumped, counts a hit and is returned. -/
def get (st : CMState) (prompt : String) (now : Nat) : CMState × Option Entry :=
  let key := generateKey prompt
  match listGet st.cache key with
  | none => ({ st with misses := st.misses + 1 }, none)
  | some e =>
    if e.expiresAt < now then
      ({ st with cache := eraseKey st.cache key, misses := st.misses + 1 }, none)
    else
      let e' := { e with accessCount := e.accessCount + 1 }
      ({ st with cache := listSet st.cache key e', hits := st.hits + 1 }, some e')

end CacheManager

namespace SessionManager

/-- A session record as held in the local map (`messages` is `none` when
the field is absent/undefined, `some l` when it is an array). -/
structure Session where
  sessionId : String
  userId : String
  messages : Option (List Msg)
  createdAt : String
  lastAccessedAt : String
deriving DecidableEq

/-- The mutable state of a `SessionManager` instance together with the
`localStorage` slot `guestSessions` it reads and writes. -/
structure SMState where
  sessions : List (String × Session)
  currentSessionId : Option String
  isGuestMode : Bool
  storage : Option (List Session)
deriving DecidableEq

/-- Embeds `sessions.forEach(s => this.sessions.set(s.sessionId, s))` on a
cleared map. -/
def fromSessions (l : List Session) : List (String × Session) :=
  l.foldl (fun m s => listSet m s.sessionId s) []

/-- Embeds `_saveGuestSessions`: in guest mode, persist
`Array.from(this.sessions.values())` to `localStorage`. -/
def saveGuestSessions (st : SMState) : SMState :=
  if st.isGuestMode then { st with storage := some (st.sessions.map (fun p => p.2)) }
  else st

/-- Embeds `_loadGuestSessions`: repopulate the map from storage; with nothing
stored (or after a parse failure) returns `[]` leaving the map alone. -/
def loadGuestSessions (st : SMState) : SMState × List Session :=
  match st.storage with
  | some l => ({ st with sessions := fromSessions l }, l)
  | none => (st, [])

/-- Embeds `initialize(userId, isGuest)`: set the mode, then load sessions from
`localStorage` (guest) or from the backend (authenticated); a backend
failure degrades to returning `[]`. -/
def initSessions (st : SMState) (_userId : String) (isGuest : Bool)
    (backend : Except String (List Session)) : SMState × List Session :=
  let st := { st with isGuestMode := isGuest }
  if isGuest then loadGuestSessions st
  else
    match backend with
    | .ok sessions => ({ st with sessions := fromSessions sessions }, sessions)
    | .error _ => (st, [])

/-- The locally synthesized guest session of `createSession`. -/
def guestSession (userId : String) (now : Nat) (rand nowIso : String) : Session :=
  { sessionId := "guest_session_" ++ toString now ++ "_" ++ rand
    userId := userId, messages := some []
    createdAt := nowIso, lastAccessedAt := nowIso }

/-- Embeds `createSession` of the current (guest-aware) `SessionManager`: guest
mode synthesizes a local session and persists; authenticated mode stores
the backend's session; a backend failure is rethrown.  The map is NOT
cleared first. -/
def createSession (st : SMState) (userId : String) (now : Nat)
    (rand nowIso : String) (backend : Except String Session) :
    SMState × Except String Session :=
  if st.isGuestMode then
    let s := guestSession userId now rand nowIso
    let st1 := { st with sessions := listSet st.sessions s.sessionId s }
    (saveGuestSessions st1, .ok s)
  else
    match backend with
    | .ok s => ({ st with sessions := listSet st.sessions s.sessionId s }, .ok s)
    | .error e => (st, .error e)

/-- Embeds `createSession` of the legacy (backend-only) `SessionManager`: it
clears the whole local map BEFORE awaiting the backend, then stores the
returned session; a failure is rethrown (with the map left cleared). -/
def legacyCreateSession (st : SMState) (backend : Except String Session) :
    SMState × Except String Session :=
  let st0 := { st with sessions := [] }
  match backend with
  | .ok s => ({ st0 with sessions := listSet st0.sessions s.sessionId s }, .ok s)
  | .error e => (st0, .error e)

/-- Embeds `getSession`: local map first; a guest-mode miss is absent; otherwise
fetch from the backend, caching a non-null result; a backend failure
degrades to `null`. -/
def getSession (st : SMState) (sessionId : String)
    (backend : Except String (Option Session)) : SMState × Option Session :=
  match listGet st.sessions sessionId with
  | some s => (st, some s)
  | none =>
    if st.isGuestMode then (st, none)
    else
      match backend with
      | .ok (some s) => ({ st with sessions := listSet st.sessions sessionId s }, some s)
      | .ok none => (st, none)
      | .error _ => (st, none)

/-- Embeds `getAllSessions`: `Array.from(this.sessions.values())`. -/
def getAllSessions (st : SMState) : List Session :=
  st.sessions.map (fun p => p.2)

/-- Embeds `addMessageLocally`: append to the session's message array (creating
it when absent), update `lastAccessedAt`, and persist in guest mode; a
no-op when the session is absent. -/
def addMessageLocally (st : SMState) (sessionId : String) (m : Msg)
    (nowIso : String) : SMState :=
  match listGet st.sessions sessionId with
  | some s =>
    let s' := { s with messages := some (s.messages.getD [] ++ [m])
                       lastAccessedAt := nowIso }
    let st1 := { st with sessions := listSet st.sessions sessionId s' }
    if st1.isGuestMode then saveGuestSessions st1 else st1
  | none => st

/-- Embeds `getMessages`: cached messages when the session has a message array
(note an empty array is truthy); guest-mode misses return `[]`; otherwise
fetch from the backend, caching into a present session; a backend failure
degrades to `[]`. -/
def getMessages (st : SMState) (_userId sessionId : String)
    (backend : Except String (List Msg)) : SMState × List Msg :=
  match listGet st.sessions sessionId with
  | some s =>
    match s.messages with
    | some msgs => (st, msgs)
    | none =>
      if st.isGuestMode then (st, [])
      else
        match backend with
        | .ok msgs =>
          ({ st with sessions := listSet st.sessions sessionId { s with messages := some msgs } }, msgs)
        | .error _ => (st, [])
  | none =>
    if st.isGuestMode then (st, [])
    else
      match backend with
      | .ok msgs => (st, msgs)
      | .error _ => (st, [])

/-- Embeds `clearHistory`: guest mode empties the present session's messages and
persists; authenticated mode calls the backend and then empties the local
copy; a backend failure is caught and reported as `false`. -/
def clearHistory (st : SMState) (sessionId : String) (nowIso : String)
    (backend : Except String Unit) : SMState × Bool :=
  if st.isGuestMode then
    match listGet st.sessions sessionId with
    | some s =>
      let s' := { s with messages := some [], lastAccessedAt := nowIso }
      (saveGuestSessions { st with sessions := listSet st.sessions sessionId s' }, true)
    | none => (st, true)
  else
    match backend with
    | .ok _ =>
      match listGet st.sessions sessionId with
      | some s =>
        let s' := { s with messages := some [], lastAccessedAt := nowIso }
        ({ st with sessions := listSet st.sessions sessionId s' }, true)
      | none => (st, true)
    | .error _ => (st, false)

/-- Embeds `deleteSession`: guest mode removes locally and persists; authenticated
mode calls the backend and then removes locally; a backend failure is
caught and reported as `false`. -/
def deleteSession (st : SMState) (_userId sessionId : String)
    (backend : Except String Unit) : SMState × Bool :=
  if st.isGuestMode then
    (saveGuestSessions { st with sessions := eraseKey st.sessions sessionId }, true)
  else
    match backend with
    | .ok _ => ({ st with sessions := eraseKey st.sessions sessionId }, true)
    | .error _ => (st, false)

end SessionManager

/-! ## Claim theorems -/

theorem takeStr_cache_append (s : String) :
    takeStr 100 ("cache_" ++ s) = "cache_" ++ takeStr 94 s := by
  apply String.ext
  show (("cache_" ++ s).data.take 100) = ("cache_" ++ takeStr 94 s).data
  rw [String.data_append, String.data_append]
  show ("cache_".data ++ s.data).take 100 = "cache_".data ++ s.data.take 94
  rw [List.take_append_eq_append_take,
      @List.take_of_length_le Char 100 "cache_".data (by decide)]
  norm_num

/-- C10: `APIService._generateCacheKey` is the string `cache_` followed by
the lowercased, trimmed last user message, the whole key truncated to 100
characters; hence two conversations whose normalized last user messages
agree on their first 94 characters receive the same cache key. -/
theorem C10_cache_key_is_truncated_plaintext (c1 c2 : List Msg)
    (h : takeStr 94 (jsNormalize (lastUserContent c1))
       = takeStr 94 (jsNormalize (lastUserContent c2))) :
    APIService.generateCacheKey c1
        = takeStr 100 ("cache_" ++ jsNormalize (lastUserContent c1))
      ∧ APIService.generateCacheKey c1 = APIService.generateCacheKey c2 := by
  refine ⟨rfl, ?_⟩
  unfold APIService.generateCacheKey
  rw [takeStr_cache_append, takeStr_cache_append, h]

/-- Witness for C10: two 96-character messages that differ only after their
94th character collide on one cache key. -/
theorem C10_cache_key_is_truncated_plaintext_witness :
    APIService.generateCacheKey [⟨"user", String.mk (List.replicate 95 'a' ++ ['x'])⟩]
      = APIService.generateCacheKey [⟨"user", String.mk (List.replicate 95 'a' ++ ['y'])⟩] :=
  (C10_cache_key_is_truncated_plaintext
    [⟨"user", String.mk (List.replicate 95 'a' ++ ['x'])⟩]
    [⟨"user", String.mk (List.replicate 95 'a' ++ ['y'])⟩] (by decide)).2

theorem toInt32_bounds (n : Int) :
    -(2 ^ 31) ≤ CacheManager.toInt32 n ∧ CacheManager.toInt32 n < 2 ^ 31 := by
  unfold CacheManager.toInt32
  have h0 : 0 ≤ n % 4294967296 := Int.emod_nonneg n (by norm_num)
  have h1 : n % 4294967296 < 4294967296 := Int.emod_lt_of_pos n (by norm_num)
  constructor <;> (dsimp only []; split <;> omega)

theorem jsHash_bounds (s : String) :
    -(2 ^ 31) ≤ CacheManager.jsHash s ∧ CacheManager.jsHash s < 2 ^ 31 := by
  have key : ∀ (l : List Char) (h : Int), -(2 ^ 31) ≤ h → h < 2 ^ 31 →
      -(2 ^ 31) ≤ l.foldl CacheManager.hashStep h ∧
        l.foldl CacheManager.hashStep h < 2 ^ 31 := by
    intro l
    induction l with
    | nil => intro h hlo hhi; exact ⟨hlo, hhi⟩
    | cons c rest ih =>
      intro h hlo hhi
      have hb := toInt32_bounds (CacheManager.toInt32 (h * 32) - h + (c.toNat : Int))
      exact ih _ hb.1 hb.2
  exact key _ 0 (by norm_num) (by norm_num)

/-- C5: the cache-key derivation is deterministic and depends only on the
lowercased, trimmed content of the last user-role message: conversations
with the same normalized last user message receive the same key from
`APIService._generateCacheKey`, prompts with the same normalization
receive the same key from `CacheManager._generateKey`, and the latter
reduces its input to a fixed-width (32-bit) hash. -/
theorem C5_fingerprint_normalized_last_user_only
    (c1 c2 : List Msg) (p1 p2 : String)
    (hconv : jsNormalize (lastUserContent c1) = jsNormalize (lastUserContent c2))
    (hp : jsNormalize p1 = jsNormalize p2) :
    APIService.generateCacheKey c1 = APIService.generateCacheKey c2
      ∧ CacheManager.generateKey p1 = CacheManager.generateKey p2
      ∧ ∀ s : String, (CacheManager.jsHash s).natAbs ≤ 2 ^ 31 := by
  refine ⟨?_, ?_, ?_⟩
  · unfold APIService.generateCacheKey
    rw [hconv]
  · unfold CacheManager.generateKey
    rw [hp]
  · intro s
    have hb := jsHash_bounds s
    omega

/-- Witness for C5: the same question twice with different surrounding
casing/whitespace and different history yields identical keys in both
caches. -/
theorem C5_fingerprint_normalized_last_user_only_witness :
    APIService.generateCacheKey [⟨"user", "What is AI?"⟩]
        = APIService.generateCacheKey
            [⟨"assistant", "hello"⟩, ⟨"user", "  what is ai?  "⟩]
      ∧ CacheManager.generateKey "What is AI?" = CacheManager.generateKey "  what is ai?  "
      ∧ ∀ s : String, (CacheManager.jsHash s).natAbs ≤ 2 ^ 31 :=
  C5_fingerprint_normalized_last_user_only
    [⟨"user", "What is AI?"⟩] [⟨"assistant", "hello"⟩, ⟨"user", "  what is ai?  "⟩]
    "What is AI?" "  what is ai?  " (by decide) (by decide)

/-- The conversation of the C1 scenario: a single user turn. -/
def c1Conv : List Msg := [{ role := "user", content := "What is AI?" }]

/-- A backend inference response that is not itself a backend-side cache
hit. -/
def c1Remote : APIService.RemoteResp :=
  { response := "AI is the simulation of intelligence.", tokens := none
    isCached := some false }

/-- First `sendInferenceRequest` call of the C1 scenario, from the
constructor state, entered at t=0 and answered at t=5. -/
def c1Send1 : APIService.SendOut :=
  APIService.sendInferenceRequest APIService.init "s1" c1Conv
    { ttl := none } (.ok c1Remote) 0 5

/-- Second `sendInferenceRequest` call of the C1 scenario, on the state
left by the first call, with the identical conversation, at t=10..15. -/
def c1Send2 : APIService.SendOut :=
  APIService.sendInferenceRequest c1Send1.state "s1" c1Conv
    { ttl := none } (.ok c1Remote) 10 15

/-- C1 (code bug): after the first `sendInferenceRequest` the response
cache holds a valid, unexpired entry for the conversation's fingerprint
(the source's own `_checkCache` reports a hit at t=10), yet the second
call with the identical last user message still invokes the remote
inference RPC (as did the first — two invocations, not one) and returns
`isCached = false`: the cache-lookup step of the documented algorithm is
commented out in `sendInferenceRequest`. -/
theorem C1_send_ignores_valid_cache_entry :
    ((APIService.checkCache c1Send1.state c1Conv 10).2).isSome = true
      ∧ c1Send1.usedRemote = true
      ∧ c1Send2.usedRemote = true
      ∧ c1Send2.result = .ok
          { response := "AI is the simulation of intelligence.", latency := 5
            isCached := false, tokens := 0, conversationLength := 1 } := by
  refine ⟨by decide, rfl, rfl, rfl⟩


/-- C7: in authenticated mode a backend failure on `createSession` is
rethrown (both current and legacy versions), and `deleteSession` /
`clearHistory` return `false` with the local state untouched — a value
distinct from every success result, which is always `true` (and
`createSession` on success returns the session) — while backend failures
on the read operations (`initialize`, `getSession`, `getMessages`) are
swallowed and degrade to the best-available local data instead of an
error. -/
theorem C7_write_failures_signalled_reads_degrade
    (st : SessionManager.SMState) (uid sid e : String) (now : Nat)
    (rand nowIso : String) (hmode : st.isGuestMode = false) :
    (SessionManager.createSession st uid now rand nowIso (.error e)).2 = .error e
      ∧ (SessionManager.legacyCreateSession st (.error e)).2 = .error e
      ∧ SessionManager.deleteSession st uid sid (.error e) = (st, false)
      ∧ (SessionManager.deleteSession st uid sid (.ok ())).2 = true
      ∧ SessionManager.clearHistory st sid nowIso (.error e) = (st, false)
      ∧ (SessionManager.clearHistory st sid nowIso (.ok ())).2 = true
      ∧ (∀ s : SessionManager.Session,
          (SessionManager.createSession st uid now rand nowIso (.ok s)).2 = .ok s)
      ∧ (SessionManager.initSessions st uid false (.error e)).2 = []
      ∧ (SessionManager.getSession st sid (.error e)).2 = listGet st.sessions sid
      ∧ (SessionManager.getMessages st uid sid (.error e)).2
          = (match listGet st.sessions sid with
             | some s => s.messages.getD []
             | none => []) := by
  refine ⟨?_, rfl, ?_, ?_, ?_, ?_, ?_, rfl, ?_, ?_⟩
  · simp [SessionManager.createSession, hmode]
  · simp [SessionManager.deleteSession, hmode]
  · simp [SessionManager.deleteSession, hmode]
  · simp [SessionManager.clearHistory, hmode]
  · simp only [SessionManager.clearHistory, hmode, Bool.false_eq_true, if_false]
    cases listGet st.sessions sid <;> rfl
  · intro s
    simp [SessionManager.createSession, hmode]
  · simp only [SessionManager.getSession]
    cases listGet st.sessions sid <;> simp [hmode]
  · simp only [SessionManager.getMessages]
    cases h : listGet st.sessions sid with
    | none => simp [hmode]
    | some s => cases hm : s.messages <;> simp [hmode, hm]

/-- Concrete authenticated-mode store for the C7 witness. -/
def c7St : SessionManager.SMState :=
  { sessions := [("sid1",
      { sessionId := "sid1", userId := "u1", messages := some []
        createdAt := "t0", lastAccessedAt := "t0" })]
    currentSessionId := none, isGuestMode := false, storage := none }

/-- Witness for C7: a failed backend delete on a concrete store returns
`false` and leaves the store untouched. -/
theorem C7_write_failures_signalled_reads_degrade_witness :
    SessionManager.deleteSession c7St "u1" "sid1" (.error "network down")
      = (c7St, false) :=
  (C7_write_failures_signalled_reads_degrade c7St "u1" "sid1" "network down"
    0 "r" "t1" rfl).2.2.1

/-- C8: when the session is present and `clearHistory` succeeds (guest
mode, or authenticated mode with the backend call succeeding), it returns
`true`, the session is still present with the same identity fields but an
empty message list and an updated `lastAccessedAt`, `getMessages` for it
returns the empty sequence (without consulting the backend), every other
key of the local map is untouched, and the cleared session still appears
in `getAllSessions`. -/
theorem C8_clearHistory_empties_messages_keeps_session
    (st : SessionManager.SMState) (sid uid nowIso : String)
    (s : SessionManager.Session) (bk : Except String Unit)
    (hs : listGet st.sessions sid = some s)
    (hok : st.isGuestMode = true ∨ bk = .ok ()) :
    (SessionManager.clearHistory st sid nowIso bk).2 = true
      ∧ listGet (SessionManager.clearHistory st sid nowIso bk).1.sessions sid
          = some { s with messages := some [], lastAccessedAt := nowIso }
      ∧ (∀ bm, (SessionManager.getMessages
            (SessionManager.clearHistory st sid nowIso bk).1 uid sid bm).2 = [])
      ∧ (∀ sid', sid' ≠ sid →
          listGet (SessionManager.clearHistory st sid nowIso bk).1.sessions sid'
            = listGet st.sessions sid')
      ∧ { s with messages := some [], lastAccessedAt := nowIso }
          ∈ SessionManager.getAllSessions (SessionManager.clearHistory st sid nowIso bk).1 := by
  have hmain : (SessionManager.clearHistory st sid nowIso bk).1.sessions
      = listSet st.sessions sid { s with messages := some [], lastAccessedAt := nowIso }
      ∧ (SessionManager.clearHistory st sid nowIso bk).2 = true := by
    by_cases hg : st.isGuestMode = true
    · simp [SessionManager.clearHistory, hg, hs, SessionManager.saveGuestSessions]
    · have hb : bk = .ok () := hok.resolve_left hg
      subst hb
      simp [SessionManager.clearHistory, hg, hs]
  refine ⟨hmain.2, ?_, ?_, ?_, ?_⟩
  · rw [hmain.1]
    exact listGet_listSet_self _ _ _
  · intro bm
    have hget : listGet (SessionManager.clearHistory st sid nowIso bk).1.sessions sid
        = some { s with messages := some [], lastAccessedAt := nowIso } := by
      rw [hmain.1]; exact listGet_listSet_self _ _ _
    simp [SessionManager.getMessages, hget]
  · intro sid' hne
    rw [hmain.1]
    exact listGet_listSet_ne _ _ _ _ hne
  · exact listGet_mem_values _ sid _ (by rw [hmain.1]; exact listGet_listSet_self _ _ _)

/-- Concrete guest store with one session holding two messages, for the C8
witness. -/
def c8St : SessionManager.SMState :=
  { sessions := [("g1",
      { sessionId := "g1", userId := "u1"
        messages := some [⟨"user", "hi"⟩, ⟨"assistant", "hello"⟩]
        createdAt := "t0", lastAccessedAt := "t0" })]
    currentSessionId := some "g1", isGuestMode := true, storage := none }

/-- Witness for C8 on a concrete guest store. -/
theorem C8_clearHistory_empties_messages_keeps_session_witness :
    (SessionManager.clearHistory c8St "g1" "t1" (.error "offline")).2 = true
      ∧ (SessionManager.getMessages
          (SessionManager.clearHistory c8St "g1" "t1" (.error "offline")).1
          "u1" "g1" (.error "offline")).2 = [] := by
  have h := C8_clearHistory_empties_messages_keeps_session c8St "g1" "u1" "t1"
    { sessionId := "g1", userId := "u1"
      messages := some [⟨"user", "hi"⟩, ⟨"assistant", "hello"⟩]
      createdAt := "t0", lastAccessedAt := "t0" }
    (.error "offline") (by decide) (Or.inl rfl)
  exact ⟨h.1, h.2.2.1 (.error "offline")⟩

/-- The C9 scenario's starting store: a fresh `SessionManager` initialized
in guest mode over empty `localStorage`. -/
def c9St0 : SessionManager.SMState :=
  (SessionManager.initSessions
    { sessions := [], currentSessionId := none, isGuestMode := false, storage := none }
    "u1" true (.error "unused")).1

/-- The store after `createSession("u1")` in guest mode. -/
def c9St1 (now : Nat) (rand iso : String) : SessionManager.SMState :=
  (SessionManager.createSession c9St0 "u1" now rand iso (.error "unused")).1

/-- The store after appending one message to the created guest session. -/
def c9St2 (now : Nat) (rand iso iso2 : String) (m : Msg) : SessionManager.SMState :=
  SessionManager.addMessageLocally (c9St1 now rand iso)
    (SessionManager.guestSession "u1" now rand iso).sessionId m iso2

/-- A fresh store re-initialized in guest mode from the `localStorage`
contents left by the C9 scenario. -/
def c9St3 (now : Nat) (rand iso iso2 : String) (m : Msg) : SessionManager.SMState :=
  (SessionManager.initSessions
    { sessions := [], currentSessionId := none, isGuestMode := false
      storage := (c9St2 now rand iso iso2 m).storage }
    "u1" true (.error "unused")).1

/-- C9: in guest mode, `createSession("u1")` returns a session whose id
carries the `guest_session_` tag; after `addMessageLocally`, `getMessages`
returns exactly the appended message; the session set is persisted to the
`guestSessions` storage slot; and a fresh store re-initialized from that
same storage holds the same session with the same message. -/
theorem C9_guest_create_append_roundtrip
    (now : Nat) (rand iso iso2 : String) (m : Msg) :
    (SessionManager.createSession c9St0 "u1" now rand iso (.error "unused")).2
        = .ok (SessionManager.guestSession "u1" now rand iso)
      ∧ (∃ rest, (SessionManager.guestSession "u1" now rand iso).sessionId
          = "guest_session_" ++ rest)
      ∧ (∀ bm, (SessionManager.getMessages (c9St2 now rand iso iso2 m) "u1"
          (SessionManager.guestSession "u1" now rand iso).sessionId bm).2 = [m])
      ∧ (c9St2 now rand iso iso2 m).storage
          = some [{ SessionManager.guestSession "u1" now rand iso with
                      messages := some [m], lastAccessedAt := iso2 }]
      ∧ listGet (c9St3 now rand iso iso2 m).sessions
            (SessionManager.guestSession "u1" now rand iso).sessionId
          = some { SessionManager.guestSession "u1" now rand iso with
                     messages := some [m], lastAccessedAt := iso2 }
      ∧ (∀ bm, (SessionManager.getMessages (c9St3 now rand iso iso2 m) "u1"
          (SessionManager.guestSession "u1" now rand iso).sessionId bm).2 = [m]) := by
  have hst2 : c9St2 now rand iso iso2 m
      = { sessions := [((SessionManager.guestSession "u1" now rand iso).sessionId,
            { SessionManager.guestSession "u1" now rand iso with
                messages := some [m], lastAccessedAt := iso2 })]
          currentSessionId := none, isGuestMode := true
          storage := some [{ SessionManager.guestSession "u1" now rand iso with
              messages := some [m], lastAccessedAt := iso2 }] } := by
    simp [c9St2, c9St1, c9St0, SessionManager.initSessions,
      SessionManager.loadGuestSessions, SessionManager.createSession,
      SessionManager.saveGuestSessions, SessionManager.addMessageLocally,
      listGet, listSet, SessionManager.guestSession]
  refine ⟨rfl, ⟨toString now ++ "_" ++ rand, ?_⟩, ?_, ?_, ?_, ?_⟩
  · simp [SessionManager.guestSession, String.append_assoc]
  · intro bm
    rw [hst2]
    simp [SessionManager.getMessages, listGet]
  · rw [hst2]
  · show listGet (c9St3 now rand iso iso2 m).sessions _ = _
    have : c9St3 now rand iso iso2 m
        = { sessions := [((SessionManager.guestSession "u1" now rand iso).sessionId,
              { SessionManager.guestSession "u1" now rand iso with
                  messages := some [m], lastAccessedAt := iso2 })]
            currentSessionId := none, isGuestMode := true
            storage := some [{ SessionManager.guestSession "u1" now rand iso with
                messages := some [m], lastAccessedAt := iso2 }] } := by
      rw [c9St3, hst2]
      simp [SessionManager.initSessions, SessionManager.loadGuestSessions,
        SessionManager.fromSessions, listSet]
    rw [this]
    simp [listGet]
  · intro bm
    have : c9St3 now rand iso iso2 m
        = { sessions := [((SessionManager.guestSession "u1" now rand iso).sessionId,
              { SessionManager.guestSession "u1" now rand iso with
                  messages := some [m], lastAccessedAt := iso2 })]
            currentSessionId := none, isGuestMode := true
            storage := some [{ SessionManager.guestSession "u1" now rand iso with
                messages := some [m], lastAccessedAt := iso2 }] } := by
      rw [c9St3, hst2]
      simp [SessionManager.initSessions, SessionManager.loadGuestSessions,
        SessionManager.fromSessions, listSet]
    rw [this]
    simp [SessionManager.getMessages, listGet]

/-- C4 (amended): the legacy `SessionManager.createSession` clears the
local map before creating, so after a successful create the map holds
exactly the new session; the current (guest-aware) `createSession` does
not clear — it adds the new session and leaves every other key of the map
unchanged. -/
theorem C4_legacy_create_clears_current_create_augments
    (st : SessionManager.SMState) (s : SessionManager.Session)
    (uid : String) (now : Nat) (rand nowIso : String)
    (bk : Except String SessionManager.Session) :
    (∀ sid, listGet ((SessionManager.legacyCreateSession st (.ok s)).1).sessions sid
        = if sid = s.sessionId then some s else none)
      ∧ (SessionManager.legacyCreateSession st (.ok s)).2 = .ok s
      ∧ (st.isGuestMode = true →
          ∀ sid, sid ≠ (SessionManager.guestSession uid now rand nowIso).sessionId →
            listGet ((SessionManager.createSession st uid now rand nowIso bk).1).sessions sid
              = listGet st.sessions sid)
      ∧ (∀ s' : SessionManager.Session, st.isGuestMode = false →
          ∀ sid, sid ≠ s'.sessionId →
            listGet ((SessionManager.createSession st uid now rand nowIso (.ok s')).1).sessions sid
              = listGet st.sessions sid) := by
  refine ⟨?_, rfl, ?_, ?_⟩
  · intro sid
    by_cases h : sid = s.sessionId
    · subst h
      simp [SessionManager.legacyCreateSession, listGet, listSet]
    · simp [SessionManager.legacyCreateSession, listGet, listSet, h, Ne.symm h]
  · intro hg sid hne
    simp only [SessionManager.createSession, hg, if_true,
      SessionManager.saveGuestSessions]
    exact listGet_listSet_ne _ _ _ _ hne
  · intro s' hg sid hne
    simp only [SessionManager.createSession, hg, Bool.false_eq_true, if_false]
    exact listGet_listSet_ne _ _ _ _ hne

/-- A concrete authenticated-mode store holding one prior session, for the
C4 witness. -/
def c4StAuth : SessionManager.SMState :=
  { sessions := [("sid1",
      { sessionId := "sid1", userId := "u1", messages := some []
        createdAt := "t0", lastAccessedAt := "t0" })]
    currentSessionId := none, isGuestMode := false, storage := none }

/-- Witness for C4's amended statement on a concrete store. -/
theorem C4_legacy_create_clears_current_create_augments_witness :
    listGet ((SessionManager.legacyCreateSession c4StAuth
        (.ok { sessionId := "new1", userId := "u1", messages := some []
               createdAt := "t2", lastAccessedAt := "t2" })).1).sessions "sid1"
      = none :=
  by
    have h := (C4_legacy_create_clears_current_create_augments c4StAuth
      { sessionId := "new1", userId := "u1", messages := some []
        createdAt := "t2", lastAccessedAt := "t2" }
      "u1" 0 "r" "t2" (.error "unused")).1 "sid1"
    simpa using h

/-- A concrete guest-mode store holding one prior session, for the C4
counterexample. -/
def c4St : SessionManager.SMState :=
  { sessions := [("old1",
      { sessionId := "old1", userId := "u1", messages := some []
        createdAt := "t0", lastAccessedAt := "t0" })]
    currentSessionId := some "old1", isGuestMode := true, storage := none }

/-- Counterexample to C4 as stated: on the current (guest-aware)
`SessionManager`, `createSession` does NOT clear the map first — after a
successful create on a store holding one prior session the map holds two
sessions, and the prior session is still present. -/
theorem C4_counterexample_create_does_not_clear :
    ((SessionManager.createSession c4St "u1" 7 "r1" "t1" (.error "unused")).1).sessions.length = 2
      ∧ listGet ((SessionManager.createSession c4St "u1" 7 "r1" "t1" (.error "unused")).1).sessions "old1"
          = some { sessionId := "old1", userId := "u1", messages := some []
                   createdAt := "t0", lastAccessedAt := "t0" } := by
  refine ⟨by decide, by decide⟩

/-- C3 (amended): an entry stored at time `T` with the cache's TTL `t`
(seconds) is returned by `get` for every probe time with
`probe ≤ T + t*1000` — the closed interval, including the expiry instant
itself — and is absent for every probe time `> T + t*1000`: the source
treats an entry as expired only when `now > expiresAt`, so visibility is
`now ≤ expiresAt`, not `now < expiresAt`. -/
theorem C3_ttl_visibility_closed_interval
    (st : CacheManager.CMState) (p r : String) (T probe : Nat) :
    (probe ≤ T + st.ttl * 1000 →
      (CacheManager.get (CacheManager.put st p r T) p probe).2
        = some { CacheManager.newEntry st p r T with accessCount := 1 })
      ∧ (probe > T + st.ttl * 1000 →
        (CacheManager.get (CacheManager.put st p r T) p probe).2 = none) := by
  have hkey : listGet (CacheManager.put st p r T).cache (CacheManager.generateKey p)
      = some (CacheManager.newEntry st p r T) := by
    simp only [CacheManager.put]
    exact listGet_listSet_self _ _ _
  have hexp : (CacheManager.newEntry st p r T).expiresAt = T + st.ttl * 1000 := rfl
  constructor
  · intro h
    simp only [CacheManager.get, hkey]
    rw [if_neg (by omega)]
    simp [CacheManager.newEntry]
  · intro h
    simp only [CacheManager.get, hkey]
    rw [if_pos (by omega)]

/-- Witness for C3: with `ttl = 3600` and insertion at `T = 5`, a probe at
`3600004 ms` hits and a probe at `3600006 ms` misses. -/
theorem C3_ttl_visibility_closed_interval_witness :
    (CacheManager.get (CacheManager.put (CacheManager.mk 500 3600) "hello" "w" 5)
        "hello" 3600004).2
      = some { CacheManager.newEntry (CacheManager.mk 500 3600) "hello" "w" 5 with
                 accessCount := 1 }
      ∧ (CacheManager.get (CacheManager.put (CacheManager.mk 500 3600) "hello" "w" 5)
          "hello" 3600006).2 = none :=
  ⟨(C3_ttl_visibility_closed_interval (CacheManager.mk 500 3600) "hello" "w" 5 3600004).1
      (by decide),
   (C3_ttl_visibility_closed_interval (CacheManager.mk 500 3600) "hello" "w" 5 3600006).2
      (by decide)⟩

/-- Counterexample to C3 as stated: an entry stored at `T = 0` with
`ttl = 1` second is still returned at probe time exactly `T + t` (1000 ms),
where the claim requires absence. -/
theorem C3_counterexample_visible_at_expiry_instant :
    ((CacheManager.get (CacheManager.put (CacheManager.mk 500 1) "hello" "world" 0)
        "hello" 1000).2).isSome = true := by decide

/-- C6 (amended): for every key, a lookup on a missing entry returns
absent and increments the miss counter; on a present-but-expired entry
`CacheManager.get` returns absent, increments the miss counter and
physically removes the entry, while `APIService._checkCache` returns
absent and increments its miss counter but leaves the expired entry in
the map; on a present, unexpired entry `CacheManager.get` returns the
entry (with its `accessCount` bumped) and increments the hit counter. -/
theorem C6_lookup_miss_hit_and_purge
    (st : CacheManager.CMState) (p : String) (now : Nat)
    (ast : APIService.ApiState) (conv : List Msg) :
    (listGet st.cache (CacheManager.generateKey p) = none →
      CacheManager.get st p now = ({ st with misses := st.misses + 1 }, none))
      ∧ (∀ e, listGet st.cache (CacheManager.generateKey p) = some e →
          e.expiresAt < now →
          CacheManager.get st p now
              = ({ st with cache := eraseKey st.cache (CacheManager.generateKey p),
                           misses := st.misses + 1 }, none)
            ∧ ((st.cache.map (fun q => q.1)).Nodup →
                listGet (CacheManager.get st p now).1.cache
                  (CacheManager.generateKey p) = none))
      ∧ (∀ e, listGet st.cache (CacheManager.generateKey p) = some e →
          ¬ e.expiresAt < now →
          CacheManager.get st p now
            = ({ st with
                  cache := listSet st.cache (CacheManager.generateKey p)
                    { e with accessCount := e.accessCount + 1 },
                  hits := st.hits + 1 },
               some { e with accessCount := e.accessCount + 1 }))
      ∧ (∀ e, listGet ast.cache (APIService.generateCacheKey conv) = some e →
          e.expiresAt < now →
          APIService.checkCache ast conv now
              = ({ ast with cacheMisses := ast.cacheMisses + 1 }, none)
            ∧ (APIService.checkCache ast conv now).1.cache = ast.cache) := by
  refine ⟨?_, ?_, ?_, ?_⟩
  · intro h
    simp [CacheManager.get, h]
  · intro e he hexp
    have hmain : CacheManager.get st p now
        = ({ st with cache := eraseKey st.cache (CacheManager.generateKey p),
                     misses := st.misses + 1 }, none) := by
      simp [CacheManager.get, he, hexp]
    refine ⟨hmain, ?_⟩
    intro hnd
    rw [hmain]
    exact listGet_eraseKey_self _ _ hnd
  · intro e he hexp
    simp [CacheManager.get, he, hexp]
  · intro e he hexp
    constructor <;>
      simp [APIService.checkCache, APIService.isCacheExpired, he, hexp]

/-- The single-turn conversation of the C6 counterexample. -/
def c6Conv : List Msg := [{ role := "user", content := "q" }]

/-- An already-expired `APIService` cache entry (expired at t=5). -/
def c6Entry : APIService.CEntry :=
  { response := "r", latency := 3, timestamp := 0, expiresAt := 5
    conversationLength := 1 }

/-- An `APIService` state whose cache holds only the expired entry for the
C6 conversation's fingerprint. -/
def c6Ast : APIService.ApiState :=
  { cache := [(APIService.generateCacheKey c6Conv, c6Entry)]
    totalRequests := 0, cacheHits := 0, cacheMisses := 0
    totalLatency := 0, requests := [] }

/-- Counterexample to C6 as stated: at t=10, `_checkCache` on the expired
entry reports a miss but does NOT physically remove the entry — it is
still in the cache afterwards. -/
theorem C6_counterexample_checkCache_keeps_expired_entry :
    (APIService.checkCache c6Ast c6Conv 10).2 = none
      ∧ (APIService.checkCache c6Ast c6Conv 10).1.cacheMisses = 1
      ∧ listGet (APIService.checkCache c6Ast c6Conv 10).1.cache
          (APIService.generateCacheKey c6Conv) = some c6Entry := by
  refine ⟨?_, ?_, ?_⟩ <;>
    simp [APIService.checkCache, APIService.isCacheExpired, c6Ast, c6Entry, listGet]

/-- Witness for C6: a miss on an empty `CacheManager` counts one miss, and
`_checkCache` on the concrete expired entry leaves the cache unchanged. -/
theorem C6_lookup_miss_hit_and_purge_witness :
    CacheManager.get (CacheManager.mk 500 3600) "q" 7
        = ({ CacheManager.mk 500 3600 with misses := 1 }, none)
      ∧ (APIService.checkCache c6Ast c6Conv 10).1.cache = c6Ast.cache :=
  ⟨(C6_lookup_miss_hit_and_purge (CacheManager.mk 500 3600) "q" 7 c6Ast c6Conv).1 rfl,
   ((C6_lookup_miss_hit_and_purge (CacheManager.mk 500 3600) "q" 7 c6Ast c6Conv).2.2.2
      c6Entry (by simp [c6Ast, listGet]) (by decide)).2⟩

theorem selectOldest_go (l : List (String × CacheManager.Entry)) :
    ∀ b : String × CacheManager.Entry,
      ∃ r, l.foldl CacheManager.selStep (some b) = some r
        ∧ (r ∈ l ∨ r = b)
        ∧ r.2.createdAt ≤ b.2.createdAt
        ∧ ∀ q ∈ l, r.2.createdAt ≤ q.2.createdAt := by
  induction l with
  | nil =>
    intro b
    exact ⟨b, rfl, Or.inr rfl, le_refl _, by simp⟩
  | cons q t ih =>
    intro b
    rw [List.foldl_cons]
    by_cases hlt : q.2.createdAt < b.2.createdAt
    · rw [show CacheManager.selStep (some b) q = some q from by
        simp [CacheManager.selStep, hlt]]
      obtain ⟨r, h1, h2, h3, h4⟩ := ih q
      refine ⟨r, h1, ?_, ?_, ?_⟩
      · rcases h2 with h | h
        · exact Or.inl (List.mem_cons_of_mem _ h)
        · exact Or.inl (h ▸ List.mem_cons_self _ _)
      · exact le_trans h3 (Nat.le_of_lt hlt)
      · intro p hp
        rcases List.mem_cons.1 hp with h | h
        · exact h ▸ h3
        · exact h4 p h
    · rw [show CacheManager.selStep (some b) q = some b from by
        simp [CacheManager.selStep, hlt]]
      obtain ⟨r, h1, h2, h3, h4⟩ := ih b
      refine ⟨r, h1, ?_, h3, ?_⟩
      · rcases h2 with h | h
        · exact Or.inl (List.mem_cons_of_mem _ h)
        · exact Or.inr h
      · intro p hp
        rcases List.mem_cons.1 hp with h | h
        · subst h
          exact le_trans h3 (Nat.le_of_not_lt hlt)
        · exact h4 p h

theorem selectOldest_spec (l : List (String × CacheManager.Entry)) (hne : l ≠ []) :
    ∃ r, CacheManager.selectOldest l = some r ∧ r ∈ l
      ∧ ∀ q ∈ l, r.2.createdAt ≤ q.2.createdAt := by
  cases l with
  | nil => exact absurd rfl hne
  | cons h t =>
    obtain ⟨r, h1, h2, h3, h4⟩ := selectOldest_go t h
    refine ⟨r, ?_, ?_, ?_⟩
    · show (h :: t).foldl CacheManager.selStep none = some r
      rw [List.foldl_cons]
      exact h1
    · rcases h2 with hm | hm
      · exact List.mem_cons_of_mem _ hm
      · exact hm ▸ List.mem_cons_self _ _
    · intro q hq
      rcases List.mem_cons.1 hq with hm | hm
      · exact hm ▸ h3
      · exact h4 q hm

theorem evictOldest_spec (st : CacheManager.CMState) (hne : st.cache ≠ [])
    (hkeys : ∀ q ∈ st.cache, q.1 ≠ "") :
    ∃ k e, (k, e) ∈ st.cache
      ∧ (∀ q ∈ st.cache, e.createdAt ≤ q.2.createdAt)
      ∧ CacheManager.evictOldest st
          = { st with cache := eraseKey st.cache k, evictions := st.evictions + 1 } := by
  obtain ⟨r, h1, h2, h3⟩ := selectOldest_spec st.cache hne
  refine ⟨r.1, r.2, h2, h3, ?_⟩
  have hk : r.1 ≠ "" := hkeys r h2
  unfold CacheManager.evictOldest
  rw [if_neg (by simpa [List.isEmpty_iff] using hne), h1]
  simp [hk]

theorem evictOldest_frame (st : CacheManager.CMState) :
    (CacheManager.evictOldest st).maxSize = st.maxSize
      ∧ (CacheManager.evictOldest st).ttl = st.ttl := by
  unfold CacheManager.evictOldest
  split
  · exact ⟨rfl, rfl⟩
  · split
    · split <;> exact ⟨rfl, rfl⟩
    · exact ⟨rfl, rfl⟩

theorem evictLoopAux_spec (fuel : Nat) :
    ∀ st : CacheManager.CMState, st.cache.length < fuel →
      (∀ q ∈ st.cache, q.1 ≠ "") →
      CacheManager.getCacheSize (CacheManager.evictLoopAux fuel st).cache ≤ st.maxSize
        ∧ (CacheManager.evictLoopAux fuel st).maxSize = st.maxSize
        ∧ (CacheManager.evictLoopAux fuel st).ttl = st.ttl := by
  induction fuel with
  | zero => intro st h _; exact absurd h (Nat.not_lt_zero _)
  | succ fuel ih =>
    intro st hlen hkeys
    rw [CacheManager.evictLoopAux]
    split
    · rename_i hcond
      obtain ⟨k, e, hmem, _, heq⟩ := evictOldest_spec st hcond.2 hkeys
      have hlt : (CacheManager.evictOldest st).cache.length < st.cache.length := by
        rw [heq]
        exact eraseKey_length_lt st.cache k ⟨(k, e), hmem, rfl⟩
      have hkeys' : ∀ q ∈ (CacheManager.evictOldest st).cache, q.1 ≠ "" := by
        intro q hq
        refine hkeys q ?_
        rw [heq] at hq
        exact eraseKey_subset st.cache k q hq
      have hrec := ih (CacheManager.evictOldest st)
        (Nat.lt_of_lt_of_le hlt (Nat.le_of_lt_succ hlen)) hkeys'
      have hframe := evictOldest_frame st
      exact ⟨hframe.1 ▸ hrec.1, hframe.1 ▸ hrec.2.1, hframe.2 ▸ hrec.2.2⟩
    · rename_i hcond
      rcases Decidable.not_and_iff_or_not.1 hcond with h | h
      · exact ⟨Nat.le_of_not_lt h, rfl, rfl⟩
      · have : st.cache = [] := Decidable.not_not.1 h
        rw [this]
        exact ⟨Nat.zero_le _, rfl, rfl⟩

theorem getCacheSize_listSet_le (l : List (String × CacheManager.Entry))
    (k : String) (v : CacheManager.Entry) :
    CacheManager.getCacheSize (listSet l k v)
      ≤ CacheManager.getCacheSize l + CacheManager.sizeOfEntry v := by
  induction l with
  | nil => simp [CacheManager.getCacheSize, listSet]
  | cons p rest ih =>
    by_cases h : p.1 = k
    · simp only [listSet, beq_iff_eq, h, if_true]
      simp [CacheManager.getCacheSize]
      omega
    · simp only [listSet, beq_iff_eq, h, if_false]
      simp only [CacheManager.getCacheSize, List.map_cons, List.sum_cons] at ih ⊢
      omega

/-- C2 (amended): `put` evicts one entry at a time, always one whose
`createdAt` is minimal among the entries currently present, until the
pre-insertion total is within the configured maximum (or the cache is
empty) — but the new entry is then inserted without re-checking the
budget, so after a `put` the total estimated size is only bounded by the
maximum PLUS the size of the entry just inserted, and can exceed the
configured maximum. (The empty-string-key hypothesis reflects the JS
`if (oldestKey)` truthiness guard; every key the cache ever generates is
`cache_<digits>` and hence nonempty.) -/
theorem C2_eviction_oldest_first_budget_before_insert
    (st : CacheManager.CMState) (p r : String) (now : Nat)
    (hkeys : ∀ q ∈ st.cache, q.1 ≠ "") :
    CacheManager.getCacheSize (CacheManager.put st p r now).cache
        ≤ st.maxSize + CacheManager.sizeOfEntry (CacheManager.newEntry st p r now)
      ∧ (∀ c : CacheManager.CMState, c.cache ≠ [] → (∀ q ∈ c.cache, q.1 ≠ "") →
          ∃ k e, (k, e) ∈ c.cache
            ∧ (∀ q ∈ c.cache, e.createdAt ≤ q.2.createdAt)
            ∧ CacheManager.evictOldest c
                = { c with cache := eraseKey c.cache k
                           evictions := c.evictions + 1 }) := by
  constructor
  · have hloop := evictLoopAux_spec (st.cache.length + 1) st (Nat.lt_succ_self _) hkeys
    have hset := getCacheSize_listSet_le
      (CacheManager.evictLoopAux (st.cache.length + 1) st).cache
      (CacheManager.generateKey p) (CacheManager.newEntry st p r now)
    show CacheManager.getCacheSize
        (listSet (CacheManager.evictLoopAux (st.cache.length + 1) st).cache
          (CacheManager.generateKey p) (CacheManager.newEntry st p r now))
      ≤ st.maxSize + CacheManager.sizeOfEntry (CacheManager.newEntry st p r now)
    omega
  · intro c hne hk
    exact evictOldest_spec c hne hk

/-- Witness for C2's amended statement: a `put` into a fresh
500 MB / 3600 s cache stays within budget plus the inserted entry. -/
theorem C2_eviction_oldest_first_budget_before_insert_witness :
    CacheManager.getCacheSize
        (CacheManager.put (CacheManager.mk 500 3600) "hi" "resp" 0).cache
      ≤ (CacheManager.mk 500 3600).maxSize
        + CacheManager.sizeOfEntry
            (CacheManager.newEntry (CacheManager.mk 500 3600) "hi" "resp" 0) :=
  (C2_eviction_oldest_first_budget_before_insert
    (CacheManager.mk 500 3600) "hi" "resp" 0 (by simp [CacheManager.mk])).1

/-- A 600000-character response, larger than a 1 MB cache budget. -/
def c2Big : String := String.mk (List.replicate 600000 'a')

/-- Counterexample to C2 as stated: storing one oversized response in a
`CacheManager` configured with a 1 MB maximum leaves the total estimated
size (1200190 bytes) strictly above the configured maximum (1048576
bytes), because `put` checks the budget only before inserting. -/
theorem C2_counterexample_insert_exceeds_budget :
    (CacheManager.mk 1 3600).maxSize
      < CacheManager.getCacheSize
          (CacheManager.put (CacheManager.mk 1 3600) "hi" c2Big 0).cache := by
  have hc : (CacheManager.put (CacheManager.mk 1 3600) "hi" c2Big 0).cache
      = [(CacheManager.generateKey "hi",
          CacheManager.newEntry (CacheManager.mk 1 3600) "hi" c2Big 0)] := rfl
  rw [hc]
  have hrepl : ∀ n : Nat,
      CacheManager.jsonStrLen (String.mk (List.replicate n 'a')) = 2 + n := by
    intro n
    show 2 + ((List.replicate n 'a').map CacheManager.escLen).sum = 2 + n
    rw [List.map_replicate, show CacheManager.escLen 'a' = 1 from by decide,
      List.sum_replicate, smul_eq_mul, Nat.mul_one]
  have hbig : CacheManager.jsonStrLen c2Big = 600002 := by
    unfold c2Big
    rw [hrepl]
  rw [show ∀ (k : String) (e : CacheManager.Entry),
      CacheManager.getCacheSize [(k, e)] = CacheManager.sizeOfEntry e from
    fun k e => by simp [CacheManager.getCacheSize]]
  have hunf : ∀ (st : CacheManager.CMState) (p r : String) (now : Nat),
      CacheManager.sizeOfEntry (CacheManager.newEntry st p r now)
        = 2 * (2 + 5 + 9 + CacheManager.jsonStrLen (takeStr 200 p) + 11
            + CacheManager.jsonStrLen r + 15 + 12 + CacheManager.jsonNumLen now + 12
            + CacheManager.jsonNumLen (now + st.ttl * 1000) + 14
            + CacheManager.jsonNumLen 0) := fun st p r now => rfl
  rw [hunf, hbig, show (CacheManager.mk 1 3600).ttl = 3600 from rfl,
    show CacheManager.jsonStrLen (takeStr 200 "hi") = 4 from by decide,
    show CacheManager.jsonNumLen 0 = 1 from by decide,
    show CacheManager.jsonNumLen (0 + 3600 * 1000) = 7 from by decide,
    show (CacheManager.mk 1 3600).maxSize = 1048576 from rfl]
  norm_num
